import Mathlib

/-!
Verification of the offline-first event synchronization core of the
b2b_task repository.

The embedding covers:
* the Event entity (src/domain/entities/Event.ts),
* the local data source (src/data/local/eventLocalDataSource.ts), which
  serializes the whole event collection as one JSON blob under a single key,
* the repository (src/data/repositories/EventRepositoryImpl.ts) with its
  createEvent / updateEvent / deleteEvent / syncEvents operations.

Modelling decisions, all taken from the source:
* JavaScript Date values and the strings produced by JSON.parse are both
  inhabitants of TimeVal: JSON.stringify turns a Date into its ISO text
  and JSON.parse leaves it as text.  The exact ISO rendering lives in the
  JS runtime, so it is a parameter toIso : Int -> String of the model.
* The database holds at most the one "events" key, so its state is a single
  DBVal: absent, corrupt text (text that JSON.parse rejects), or a
  serialized event collection.
* The fallible data-source calls are driven by an Oracle: the n-th
  saveEvent call fails (throws, store unchanged) iff Oracle.saveFail n
  is some errorMessage, and the n-th getEvents enumeration throws iff
  Oracle.getFail n is true.  A saveEvent call is one fallible
  read-modify-write unit, which is how the repository observes it.
* The JavaScript expression (m || d) on strings is modelled by strOr,
  which mirrors the falsiness of the empty string.
-/


namespace B2B

/-- Status enumeration EventStatus from src/types/enums.ts. -/
inductive EventStatus
  | PENDING
  | SENT
  | FAILED
deriving DecidableEq, Repr

/-- Type enumeration EventType from src/types/enums.ts. -/
inductive EventType
  | ACCIDENT
  | SERVICE
  | TRANSFER
deriving DecidableEq, Repr

/-- A JavaScript runtime value sitting in a timestamp field: either a live
Date object (milliseconds since epoch) or the text form that JSON.parse
yields for a serialized date. -/
inductive TimeVal
  | date (ms : Int)
  | text (s : String)
deriving DecidableEq, Repr

/-- True when this timestamp is in serialized (text) form. -/
def TimeVal.isText : TimeVal → Bool
  | .date _ => false
  | .text _ => true

/-- Record type for the Event entity of src/domain/entities/Event.ts.
Optional fields (photoUri, lastSyncError, serverId) are Option String. -/
structure Event where
  id : String
  objectId : String
  type : EventType
  comment : String
  occurredAt : TimeVal
  photoUri : Option String := none
  status : EventStatus
  syncAttempts : Nat
  lastSyncError : Option String := none
  createdAt : TimeVal
  updatedAt : TimeVal
  serverId : Option String := none
deriving DecidableEq, Repr

/-- Effect of JSON.stringify followed by JSON.parse on one timestamp: a
Date serializes to its ISO text and is not revived by JSON.parse; text
goes through unchanged. -/
def timeRound (toIso : Int → String) : TimeVal → TimeVal
  | .date ms => .text (toIso ms)
  | .text s => .text s

/-- Effect of JSON.stringify followed by JSON.parse on an event record
(eventLocalDataSource.ts lines 19 and 27): strings, numbers, enum strings
and present or absent optional fields round-trip exactly; the three Date
fields come back in text form. -/
def jsonRound (toIso : Int → String) (e : Event) : Event :=
  { e with
    occurredAt := timeRound toIso e.occurredAt
    createdAt := timeRound toIso e.createdAt
    updatedAt := timeRound toIso e.updatedAt }

/-- True when all three timestamp fields are already in serialized text
form.  Every event read back from storage satisfies this. -/
def timesText (e : Event) : Bool :=
  e.occurredAt.isText && e.createdAt.isText && e.updatedAt.isText

/-- State of the key-value database, restricted to the single "events" key
the data source uses: the key can be absent, hold text rejected by
JSON.parse, or hold a serialized event collection. -/
inductive DBVal
  | absent
  | corrupt
  | blob (events : List Event)
deriving DecidableEq, Repr

/-- Pure part of EventLocalDataSource.getEvents: absent data gives the
empty list, a JSON.parse failure is caught and gives the empty list,
otherwise the parsed collection is returned. -/
def readEvents : DBVal → List Event
  | .blob l => l
  | _ => []

/-- Failure behaviour of the environment (the underlying storage backend):
which data-source calls throw, and with what error message. -/
structure Oracle where
  saveFail : Nat → Option String
  getFail : Nat → Bool
  deleteFail : Bool

/-- Data-source state threaded through the operations: the database value
plus counters of the fallible calls made so far (indexes into the
oracle). -/
structure DSState where
  db : DBVal
  saves : Nat
  gets : Nat
deriving DecidableEq, Repr

/-- Model of EventLocalDataSource.saveEvents: serialize the whole
collection and store it under the one key.  Serialization sends every
event through jsonRound. -/
def dsSaveEvents (toIso : Int → String) (l : List Event) : DBVal :=
  DBVal.blob (l.map (jsonRound toIso))

/-- The upsert performed by EventLocalDataSource.saveEvent: replace the
first event with the same id (findIndex plus assignment), or push at the
end. -/
def upsert : List Event → Event → List Event
  | [], e => [e]
  | x :: xs, e => if x.id = e.id then e :: xs else x :: upsert xs e

/-- Model of EventLocalDataSource.getEvents as the repository sees it: the
underlying getItem may throw (decided by the oracle); a parse failure is
already swallowed inside readEvents. -/
def dsGetEvents (ora : Oracle) (s : DSState) :
    Except String (List Event) × DSState :=
  if ora.getFail s.gets then
    (.error "getItem failed", { s with gets := s.gets + 1 })
  else
    (.ok (readEvents s.db), { s with gets := s.gets + 1 })

/-- Model of EventLocalDataSource.saveEvent: read the collection, upsert
by id, re-serialize and write back.  The call is one fallible unit: when
the oracle makes it fail it throws with the given message and the store is
unchanged. -/
def dsSaveEvent (ora : Oracle) (toIso : Int → String) (e : Event)
    (s : DSState) : Except String Unit × DSState :=
  match ora.saveFail s.saves with
  | some msg => (.error msg, { s with saves := s.saves + 1 })
  | none =>
      (.ok (), { s with
        saves := s.saves + 1
        db := dsSaveEvents toIso (upsert (readEvents s.db) e) })

/-- Model of EventLocalDataSource.getEventById: enumerate, then find by
id (undefined coerced to null, here none). -/
def dsGetEventById (ora : Oracle) (id : String) (s : DSState) :
    Except String (Option Event) × DSState :=
  match dsGetEvents ora s with
  | (.error m, s1) => (.error m, s1)
  | (.ok l, s1) => (.ok (l.find? (fun x => x.id == id)), s1)

/-- Model of EventLocalDataSource.deleteEvent: filter the collection by id
and write it back; may throw (decided by the oracle), leaving the store
unchanged. -/
def dsDeleteEvent (ora : Oracle) (toIso : Int → String) (id : String)
    (s : DSState) : Except String Unit × DSState :=
  if ora.deleteFail then
    (.error "delete failed", s)
  else
    (.ok (), { s with
      db := dsSaveEvents toIso
        ((readEvents s.db).filter (fun x => !(x.id == id))) })

/-- First event stored under this id, exactly as getEventById would read
it. -/
def lookupStore (db : DBVal) (id : String) : Option Event :=
  (readEvents db).find? (fun x => x.id == id)

/-- Constant MAX_RETRY_ATTEMPTS from EventRepositoryImpl. -/
def MAX_RETRY_ATTEMPTS : Nat := 3

/-- Constant RETRY_DELAY from EventRepositoryImpl (unused by the logic). -/
def RETRY_DELAY : Nat := 2000

/-- JavaScript (m || d) on strings: the empty string is falsy. -/
def strOr (m d : String) : String := if m = "" then d else m

/-- Model of EventRepositoryImpl.createEvent (lines 24-47).  Connected:
mark a copy SENT with 0 attempts and save it; if the save throws, mark the
event FAILED with 1 attempt and the error message and save that (this
second save is not inside a try, so its failure propagates).
Disconnected: mark PENDING with 0 attempts and save. -/
def createEvent (ora : Oracle) (toIso : Int → String) (isConnected : Bool)
    (e : Event) (s : DSState) : Except String Event × DSState :=
  if isConnected then
    let localeEvent := { e with status := EventStatus.SENT, syncAttempts := 0 }
    match dsSaveEvent ora toIso localeEvent s with
    | (.ok _, s1) => (.ok localeEvent, s1)
    | (.error msg, s1) =>
        let failed := { e with
          status := EventStatus.FAILED
          syncAttempts := 1
          lastSyncError := some (strOr msg "Failed to sync") }
        match dsSaveEvent ora toIso failed s1 with
        | (.ok _, s2) => (.ok failed, s2)
        | (.error m2, s2) => (.error m2, s2)
  else
    let pendingEvent := { e with status := EventStatus.PENDING, syncAttempts := 0 }
    match dsSaveEvent ora toIso pendingEvent s with
    | (.ok _, s1) => (.ok pendingEvent, s1)
    | (.error m2, s1) => (.error m2, s1)

/-- Model of EventRepositoryImpl.updateEvent (lines 49-76).  Connected:
save a copy marked SENT with 0 attempts (the saved and returned copy keeps
the old lastSyncError; line 57 blanks it only on the aliased input object
of the caller); on failure save the event marked FAILED with
min (attempts + 1) MAX attempts and the error message.  Disconnected: mark
PENDING, attempts untouched, and save. -/
def updateEvent (ora : Oracle) (toIso : Int → String) (isConnected : Bool)
    (e : Event) (s : DSState) : Except String Event × DSState :=
  if isConnected then
    let localeEvent := { e with status := EventStatus.SENT, syncAttempts := 0 }
    match dsSaveEvent ora toIso localeEvent s with
    | (.ok _, s1) => (.ok localeEvent, s1)
    | (.error msg, s1) =>
        let failed := { e with
          status := EventStatus.FAILED
          syncAttempts := min (e.syncAttempts + 1) MAX_RETRY_ATTEMPTS
          lastSyncError := some (strOr msg "Failed to sync") }
        match dsSaveEvent ora toIso failed s1 with
        | (.ok _, s2) => (.ok failed, s2)
        | (.error m2, s2) => (.error m2, s2)
  else
    let pendingEvent := { e with status := EventStatus.PENDING }
    match dsSaveEvent ora toIso pendingEvent s with
    | (.ok _, s1) => (.ok pendingEvent, s1)
    | (.error m2, s1) => (.error m2, s1)

/-- Model of EventRepositoryImpl.deleteEvent (lines 78-88): when
connected, delete locally, swallowing any failure (console.warn); when
disconnected, do nothing at all. -/
def deleteEvent (ora : Oracle) (toIso : Int → String) (isConnected : Bool)
    (id : String) (s : DSState) : Except String Unit × DSState :=
  if isConnected then
    match dsDeleteEvent ora toIso id s with
    | (.ok _, s1) => (.ok (), s1)
    | (.error _, s1) => (.ok (), s1)
  else
    (.ok (), s)

/-- Model of EventRepositoryImpl.getEventById (lines 20-22): pass-through
to the data source. -/
def getEventById (ora : Oracle) (id : String) (s : DSState) :
    Except String (Option Event) × DSState :=
  dsGetEventById ora id s

/-- Body of the for loop of EventRepositoryImpl.syncEvents
(lines 105-132) for one event of the snapshot: skip when retries are
exhausted; otherwise save a SENT copy with 0 attempts; if that save
throws, increment the attempt counter, record the error message, mark
FAILED when the maximum is reached and PENDING otherwise, and save.  This
second save sits in the catch block, so its own failure escapes. -/
def syncStep (ora : Oracle) (toIso : Int → String) (e : Event)
    (s : DSState) : Except String Unit × DSState :=
  if MAX_RETRY_ATTEMPTS ≤ e.syncAttempts then
    (.ok (), s)
  else
    let syncedEvent := { e with status := EventStatus.SENT, syncAttempts := 0 }
    match dsSaveEvent ora toIso syncedEvent s with
    | (.ok _, s1) => (.ok (), s1)
    | (.error msg, s1) =>
        let failed := { e with
          syncAttempts := e.syncAttempts + 1
          lastSyncError := some (strOr msg "Sync failed")
          status :=
            if MAX_RETRY_ATTEMPTS ≤ e.syncAttempts + 1 then EventStatus.FAILED
            else EventStatus.PENDING }
        match dsSaveEvent ora toIso failed s1 with
        | (.ok _, s2) => (.ok (), s2)
        | (.error m2, s2) => (.error m2, s2)

/-- The for loop of syncEvents over the snapshot of eligible events: an
error escaping a step (the catch-block save failing) aborts the remaining
iterations. -/
def syncLoop (ora : Oracle) (toIso : Int → String) :
    List Event → DSState → Except String Unit × DSState
  | [], s => (.ok (), s)
  | e :: rest, s =>
      match syncStep ora toIso e s with
      | (.ok _, s1) => syncLoop ora toIso rest s1
      | (.error m, s1) => (.error m, s1)

/-- The filter of syncEvents lines 100-103: keep PENDING and FAILED
events. -/
def pendingOrFailed (l : List Event) : List Event :=
  l.filter (fun e =>
    decide (e.status = EventStatus.PENDING) ||
    decide (e.status = EventStatus.FAILED))

/-- Model of EventRepositoryImpl.syncEvents (lines 90-136): return
immediately when disconnected; otherwise enumerate, filter, and run the
loop, with the outer try/catch turning any escaped error (enumeration
failure or an escaped per-event error) into a logged, normal return. -/
def syncEvents (ora : Oracle) (toIso : Int → String) (isConnected : Bool)
    (s : DSState) : Except String Unit × DSState :=
  if isConnected then
    match dsGetEvents ora s with
    | (.error _, s1) => (.ok (), s1)
    | (.ok localEvents, s1) =>
        match syncLoop ora toIso (pendingOrFailed localEvents) s1 with
        | (_, s2) => (.ok (), s2)
  else
    (.ok (), s)

/-- The invariant of claim C5: no stored event exceeds the retry
maximum. -/
def InvLe3 (db : DBVal) : Prop :=
  ∀ x ∈ readEvents db, x.syncAttempts ≤ MAX_RETRY_ATTEMPTS

instance (db : DBVal) : Decidable (InvLe3 db) := by
  unfold InvLe3; infer_instance

/-- Oracle of an environment where every storage call succeeds. -/
def allOk : Oracle where
  saveFail := fun _ => none
  getFail := fun _ => false
  deleteFail := false

/-- Oracle whose first save call fails with the given message while
everything else succeeds. -/
def failFirst (msg : String) : Oracle where
  saveFail := fun n => if n = 0 then some msg else none
  getFail := fun _ => false
  deleteFail := false

/-- Oracle whose first two save calls fail while everything else
succeeds. -/
def failTwice : Oracle where
  saveFail := fun n => if n < 2 then some "disk full" else none
  getFail := fun _ => false
  deleteFail := false

/-- Concrete stand-in for Date.prototype.toISOString; no claim depends on
the shape of the rendered text. -/
def iso0 : Int → String := fun ms => toString ms

/-- Initial data-source state over a given database value, with no calls
made yet. -/
def st0 (db : DBVal) : DSState := ⟨db, 0, 0⟩

/-- Sample serialized timestamp. -/
def tsText : TimeVal := .text "2024-01-01T00:00:00.000Z"

/-- Sample pending event, as stored (timestamps in text form). -/
def ev1 : Event where
  id := "e1"
  objectId := "obj_001"
  type := EventType.ACCIDENT
  comment := "engine failure"
  occurredAt := tsText
  status := EventStatus.PENDING
  syncAttempts := 0
  createdAt := tsText
  updatedAt := tsText

/-- Second sample pending event with a distinct id. -/
def ev2 : Event := { ev1 with id := "e2", comment := "oil service" }

/-- Sample stored event carrying a failure record: FAILED after one
attempt, with lastSyncError set. -/
def evErr : Event :=
  { ev1 with status := EventStatus.FAILED, syncAttempts := 1,
             lastSyncError := some "boom" }

/-- Sample event one attempt short of the retry maximum. -/
def evTwo : Event :=
  { ev1 with status := EventStatus.FAILED, syncAttempts := 2,
             lastSyncError := some "old error" }

/-- Sample freshly created event whose timestamps are still live Date
values. -/
def evDate : Event :=
  { ev1 with occurredAt := TimeVal.date 1704067200000,
             createdAt := TimeVal.date 1704067200000,
             updatedAt := TimeVal.date 1704067200000 }

/-- Sample event whose attempt counter already exceeds the maximum. -/
def evOver : Event := { ev1 with syncAttempts := 4 }



/-! ### Basic lemmas about serialization and the store -/

@[simp]
theorem jsonRound_id (toIso : Int → String) (e : Event) :
    (jsonRound toIso e).id = e.id := rfl

@[simp]
theorem jsonRound_status (toIso : Int → String) (e : Event) :
    (jsonRound toIso e).status = e.status := rfl

@[simp]
theorem jsonRound_syncAttempts (toIso : Int → String) (e : Event) :
    (jsonRound toIso e).syncAttempts = e.syncAttempts := rfl

@[simp]
theorem jsonRound_lastSyncError (toIso : Int → String) (e : Event) :
    (jsonRound toIso e).lastSyncError = e.lastSyncError := rfl

/-- Serialization is the identity on events whose timestamps are already
in text form. -/
theorem jsonRound_of_timesText (toIso : Int → String) (e : Event)
    (h : timesText e = true) : jsonRound toIso e = e := by
  rcases e with ⟨i, o, t, c, oc, ph, st, sa, ls, ca, ua, sv⟩
  simp only [timesText, Bool.and_eq_true] at h
  cases oc <;> cases ca <;> cases ua <;>
    simp_all [TimeVal.isText, jsonRound, timeRound]

theorem find?_map_jsonRound (toIso : Int → String) (l : List Event)
    (i : String) :
    (l.map (jsonRound toIso)).find? (fun x => x.id == i)
      = (l.find? (fun x => x.id == i)).map (jsonRound toIso) := by
  rw [List.find?_map]; rfl

theorem upsert_find?_self (l : List Event) (e : Event) :
    (upsert l e).find? (fun x => x.id == e.id) = some e := by
  induction l with
  | nil => simp [upsert]
  | cons x xs ih =>
      by_cases h : x.id = e.id
      · simp [upsert, h]
      · simp [upsert, h, ih]

theorem upsert_find?_ne (l : List Event) (e : Event) (i : String)
    (h : ¬ e.id = i) :
    (upsert l e).find? (fun x => x.id == i) = l.find? (fun x => x.id == i) := by
  induction l with
  | nil => simp [upsert, h]
  | cons x xs ih =>
      by_cases hx : x.id = e.id
      · simp [upsert, hx, h]
      · simp only [upsert, if_neg hx]
        rw [List.find?_cons, List.find?_cons]
        cases hpx : (x.id == i) <;> simp [ih]

theorem mem_upsert {l : List Event} {e x : Event} (h : x ∈ upsert l e) :
    x = e ∨ x ∈ l := by
  induction l with
  | nil => simpa [upsert] using h
  | cons y ys ih =>
      by_cases hy : y.id = e.id
      · simp only [upsert, if_pos hy, List.mem_cons] at h
        rcases h with h | h
        · exact Or.inl h
        · exact Or.inr (List.mem_cons_of_mem _ h)
      · simp only [upsert, if_neg hy, List.mem_cons] at h
        rcases h with h | h
        · exact Or.inr (by simp [h])
        · rcases ih h with h2 | h2
          · exact Or.inl h2
          · exact Or.inr (List.mem_cons_of_mem _ h2)

theorem dsSaveEvent_ok (ora : Oracle) (toIso : Int → String) (e : Event)
    (s : DSState) (h : ora.saveFail s.saves = none) :
    dsSaveEvent ora toIso e s =
      (.ok (), { s with
        saves := s.saves + 1
        db := dsSaveEvents toIso (upsert (readEvents s.db) e) }) := by
  simp [dsSaveEvent, h]

theorem dsSaveEvent_fail (ora : Oracle) (toIso : Int → String) (e : Event)
    (s : DSState) (msg : String) (h : ora.saveFail s.saves = some msg) :
    dsSaveEvent ora toIso e s = (.error msg, { s with saves := s.saves + 1 }) := by
  simp [dsSaveEvent, h]

theorem lookupStore_save_self (toIso : Int → String) (db : DBVal) (e : Event) :
    lookupStore (dsSaveEvents toIso (upsert (readEvents db) e)) e.id
      = some (jsonRound toIso e) := by
  show ((upsert (readEvents db) e).map (jsonRound toIso)).find?
        (fun x => x.id == e.id) = some (jsonRound toIso e)
  rw [find?_map_jsonRound, upsert_find?_self]
  rfl

theorem lookupStore_save_ne (toIso : Int → String) (db : DBVal) (e : Event)
    (i : String) (h : ¬ e.id = i) :
    lookupStore (dsSaveEvents toIso (upsert (readEvents db) e)) i
      = (lookupStore db i).map (jsonRound toIso) := by
  show ((upsert (readEvents db) e).map (jsonRound toIso)).find?
        (fun x => x.id == i) = (lookupStore db i).map (jsonRound toIso)
  rw [find?_map_jsonRound, upsert_find?_ne _ _ _ h]
  rfl



/-! ### Claims settled by direct computation -/

/-- C3: running syncEvents while the connectivity oracle reports
disconnected is a no-op: the call returns normally and the data-source
state — hence every stored event, every field included — is exactly the
initial one. -/
theorem C3_syncEvents_offline_noop (ora : Oracle) (toIso : Int → String)
    (s : DSState) : syncEvents ora toIso false s = (.ok (), s) := rfl

/-- C9: deleteEvent while disconnected leaves the stored collection (and
the whole data-source state) unchanged and reports no error: offline
deletion is a silent no-op at the public interface. -/
theorem C9_deleteEvent_offline_noop (ora : Oracle) (toIso : Int → String)
    (id : String) (s : DSState) :
    deleteEvent ora toIso false id s = (.ok (), s) := rfl

/-- C10: syncEvents never propagates an exception: for every connectivity
value, every oracle behaviour (enumeration failure, per-event save
failure) and every database content (including corrupt data), the call
returns Except.ok. -/
theorem C10_syncEvents_never_throws (ora : Oracle) (toIso : Int → String)
    (isConnected : Bool) (s : DSState) :
    ∃ s2, syncEvents ora toIso isConnected s = (Except.ok (), s2) := by
  cases isConnected with
  | false => exact ⟨s, rfl⟩
  | true =>
      rcases h : dsGetEvents ora s with ⟨r, s1⟩
      cases r with
      | error m => exact ⟨s1, by simp [syncEvents, h]⟩
      | ok l =>
          rcases h2 : syncLoop ora toIso (pendingOrFailed l) s1 with ⟨r2, s2⟩
          exact ⟨s2, by simp [syncEvents, h, h2]⟩

/-- C1 counterexample: a fully successful reconciliation pass over a
stored FAILED event whose lastSyncError is "boom" persists it as SENT
with syncAttempts 0 but with lastSyncError still "boom" — the error field
is not cleared as the claim states. -/
theorem C1_cex_success_keeps_lastSyncError :
    lookupStore (syncEvents allOk iso0 true (st0 (DBVal.blob [evErr]))).2.db "e1"
      = some { evErr with status := EventStatus.SENT, syncAttempts := 0 } ∧
    ({ evErr with status := EventStatus.SENT, syncAttempts := 0 } : Event).lastSyncError
      = some "boom" := by
  constructor
  · rfl
  · rfl

/-- C5 counterexample: starting from an empty store (which satisfies the
invariant), updateEvent called offline with an event whose syncAttempts is
4 persists that event unchanged, so the stored collection afterwards
violates the claimed invariant that syncAttempts never exceeds 3. -/
theorem C5_cex_updateEvent_offline_breaks_invariant :
    InvLe3 (st0 DBVal.absent).db ∧
    ¬ InvLe3 (updateEvent allOk iso0 false evOver (st0 DBVal.absent)).2.db := by
  constructor
  · intro x hx
    simp [st0, readEvents] at hx
  · intro h
    have := h { evOver with status := EventStatus.PENDING } (by decide)
    simp [evOver, ev1, MAX_RETRY_ATTEMPTS] at this

/-- C6 counterexample: an offline updateEvent of a stored event persists
it (and returns it) with updatedAt exactly equal to its prior value — the
bookkeeping timestamp is not refreshed on this persisted mutation. -/
theorem C6_cex_update_does_not_refresh_updatedAt :
    (updateEvent allOk iso0 false evErr (st0 (DBVal.blob [evErr]))).1
      = Except.ok { evErr with status := EventStatus.PENDING } ∧
    lookupStore (updateEvent allOk iso0 false evErr (st0 (DBVal.blob [evErr]))).2.db "e1"
      = some { evErr with status := EventStatus.PENDING } ∧
    ({ evErr with status := EventStatus.PENDING } : Event).updatedAt
      = evErr.updatedAt := by
  refine ⟨rfl, rfl, rfl⟩

/-- C7 counterexample: persisting one event whose timestamps are live
Date values and reloading the collection does not return the original
event: the timestamp fields come back as serialized text, not as the
original Date values. -/
theorem C7_cex_roundtrip_changes_dates :
    readEvents (dsSaveEvents iso0 [evDate]) ≠ [evDate] := by
  decide

/-- C8: evaluation of syncEvents at the failing input.  Both events are
eligible (PENDING, 0 attempts); the data source throws on the first two
save calls — the attempt for the first event and the persistence of its
failure record inside the catch block — and would succeed from the third
call on.  The escaped second throw aborts the batch: the final state shows
exactly two save calls were made and the store is untouched, so the second
event was never processed (it would have been persisted as SENT had the
loop continued), contradicting the claim that one event per-event failure
never prevents the remaining events from being processed. -/
theorem C8_bug_second_save_failure_aborts_batch :
    syncEvents failTwice iso0 true (st0 (DBVal.blob [ev1, ev2]))
      = (Except.ok (), ⟨DBVal.blob [ev1, ev2], 2, 1⟩) ∧
    failTwice.saveFail 2 = none ∧
    ev2.status = EventStatus.PENDING ∧ ev2.syncAttempts = 0 := by
  refine ⟨rfl, rfl, rfl, rfl⟩



/-- C4: creating an event while disconnected returns it with status
PENDING and syncAttempts 0 and persists it locally: an immediate
getEventById with its id retrieves exactly the stored record — the created
event with its timestamps in serialized form, same id, status PENDING and
syncAttempts 0. -/
theorem C4_createEvent_offline_persists (ora : Oracle) (toIso : Int → String)
    (e : Event) (s : DSState)
    (hsave : ora.saveFail s.saves = none)
    (hget : ora.getFail s.gets = false) :
    ∃ s1,
      createEvent ora toIso false e s =
        (.ok { e with status := EventStatus.PENDING, syncAttempts := 0 }, s1) ∧
      getEventById ora e.id s1 =
        (.ok (some (jsonRound toIso
            { e with status := EventStatus.PENDING, syncAttempts := 0 })),
          { s1 with gets := s1.gets + 1 }) ∧
      (jsonRound toIso { e with status := EventStatus.PENDING, syncAttempts := 0 }).id
        = e.id ∧
      (jsonRound toIso { e with status := EventStatus.PENDING, syncAttempts := 0 }).status
        = EventStatus.PENDING ∧
      (jsonRound toIso { e with status := EventStatus.PENDING, syncAttempts := 0 }).syncAttempts
        = 0 := by
  refine ⟨{ s with
      saves := s.saves + 1
      db := dsSaveEvents toIso (upsert (readEvents s.db)
        { e with status := EventStatus.PENDING, syncAttempts := 0 }) },
    ?_, ?_, rfl, rfl, rfl⟩
  · simp only [createEvent, Bool.false_eq_true, if_false,
      dsSaveEvent_ok _ _ _ _ hsave]
  · simp only [getEventById, dsGetEventById, dsGetEvents, hget,
      Bool.false_eq_true, if_false]
    have hfind := lookupStore_save_self toIso s.db
      { e with status := EventStatus.PENDING, syncAttempts := 0 }
    simp only [lookupStore] at hfind
    simp [hfind]



/-- C2: an eligible stored event one attempt short of the maximum whose
confirmation attempt fails (and whose failure record is then persisted) is
stored as FAILED with syncAttempts 3, and a further reconciliation pass
under the same conditions changes nothing but the enumeration counter
(the event is skipped).  In general, one failing per-event step increments
syncAttempts by exactly 1, records the failure reason in lastSyncError,
and sets status FAILED when the counter reaches the maximum and PENDING
otherwise, persisting exactly that record. -/
theorem C2_failed_attempt_reaches_max_then_skipped (toIso : Int → String)
    (e : Event) (msg : String)
    (helig : e.status = EventStatus.PENDING ∨ e.status = EventStatus.FAILED)
    (hatt : e.syncAttempts = MAX_RETRY_ATTEMPTS - 1)
    (htext : timesText e = true) :
    (∃ s1,
      syncEvents (failFirst msg) toIso true (st0 (DBVal.blob [e])) = (.ok (), s1) ∧
      s1.db = DBVal.blob [{ e with
        syncAttempts := MAX_RETRY_ATTEMPTS
        lastSyncError := some (strOr msg "Sync failed")
        status := EventStatus.FAILED }] ∧
      syncEvents (failFirst msg) toIso true s1
        = (.ok (), { s1 with gets := s1.gets + 1 })) ∧
    (∀ (ora : Oracle) (x : Event) (s : DSState) (m : String),
      x.syncAttempts < MAX_RETRY_ATTEMPTS →
      ora.saveFail s.saves = some m →
      ora.saveFail (s.saves + 1) = none →
      syncStep ora toIso x s =
        (.ok (), { s with
          saves := s.saves + 1 + 1
          db := dsSaveEvents toIso (upsert (readEvents s.db) { x with
            syncAttempts := x.syncAttempts + 1
            lastSyncError := some (strOr m "Sync failed")
            status := if MAX_RETRY_ATTEMPTS ≤ x.syncAttempts + 1
                      then EventStatus.FAILED else EventStatus.PENDING }) })) := by
  have step_law : ∀ (ora : Oracle) (x : Event) (s : DSState) (m : String),
      x.syncAttempts < MAX_RETRY_ATTEMPTS →
      ora.saveFail s.saves = some m →
      ora.saveFail (s.saves + 1) = none →
      syncStep ora toIso x s =
        (.ok (), { s with
          saves := s.saves + 1 + 1
          db := dsSaveEvents toIso (upsert (readEvents s.db) { x with
            syncAttempts := x.syncAttempts + 1
            lastSyncError := some (strOr m "Sync failed")
            status := if MAX_RETRY_ATTEMPTS ≤ x.syncAttempts + 1
                      then EventStatus.FAILED else EventStatus.PENDING }) }) := by
    intro ora x s m hx hf hok
    have hns : ¬ MAX_RETRY_ATTEMPTS ≤ x.syncAttempts := Nat.not_le.mpr hx
    have hok2 : ora.saveFail ({ s with saves := s.saves + 1 } : DSState).saves = none := hok
    simp only [syncStep, if_neg hns, dsSaveEvent_fail _ _ _ _ _ hf,
      dsSaveEvent_ok _ _ _ _ hok2]
  refine ⟨?_, step_law⟩
  have hsA : (failFirst msg).saveFail 0 = some msg := rfl
  have hsB : (failFirst msg).saveFail (0 + 1) = none := rfl
  have hlt : e.syncAttempts < MAX_RETRY_ATTEMPTS := by rw [hatt]; decide
  set fe : Event := { e with
    syncAttempts := MAX_RETRY_ATTEMPTS
    lastSyncError := some (strOr msg "Sync failed")
    status := EventStatus.FAILED } with hfe_def
  have hstep := step_law (failFirst msg) e (⟨DBVal.blob [e], 0, 1⟩ : DSState)
    msg hlt hsA hsB
  have hfe' : ({ e with
      syncAttempts := e.syncAttempts + 1
      lastSyncError := some (strOr msg "Sync failed")
      status := if MAX_RETRY_ATTEMPTS ≤ e.syncAttempts + 1
                then EventStatus.FAILED else EventStatus.PENDING } : Event) = fe := by
    rw [hfe_def, hatt]; rfl
  have hup : upsert [e] fe = [fe] := by
    simp [upsert, hfe_def]
  have hjr : jsonRound toIso fe = fe := jsonRound_of_timesText toIso fe htext
  have hstep2 : syncStep (failFirst msg) toIso e ⟨DBVal.blob [e], 0, 1⟩
      = (.ok (), ⟨DBVal.blob [fe], 2, 1⟩) := by
    rw [hstep, hfe']
    simp [dsSaveEvents, readEvents, hup, hjr]
  have hget0 : dsGetEvents (failFirst msg) (st0 (DBVal.blob [e]))
      = (.ok [e], ⟨DBVal.blob [e], 0, 1⟩) := rfl
  have hpf : pendingOrFailed [e] = [e] := by
    rcases helig with h | h <;> simp [pendingOrFailed, h]
  have hloop : syncLoop (failFirst msg) toIso [e] ⟨DBVal.blob [e], 0, 1⟩
      = (.ok (), ⟨DBVal.blob [fe], 2, 1⟩) := by
    simp [syncLoop, hstep2]
  have hget1 : dsGetEvents (failFirst msg) ⟨DBVal.blob [fe], 2, 1⟩
      = (.ok [fe], ⟨DBVal.blob [fe], 2, 2⟩) := rfl
  have hpf2 : pendingOrFailed [fe] = [fe] := by
    simp [pendingOrFailed, hfe_def]
  have hstep3 : syncStep (failFirst msg) toIso fe ⟨DBVal.blob [fe], 2, 2⟩
      = (.ok (), ⟨DBVal.blob [fe], 2, 2⟩) := by
    simp [syncStep, hfe_def]
  have hloop2 : syncLoop (failFirst msg) toIso [fe] ⟨DBVal.blob [fe], 2, 2⟩
      = (.ok (), ⟨DBVal.blob [fe], 2, 2⟩) := by
    simp [syncLoop, hstep3]
  refine ⟨⟨DBVal.blob [fe], 2, 1⟩, ?_, rfl, ?_⟩
  · simp [syncEvents, hget0, hpf, hloop]
  · simp [syncEvents, hget1, hpf2, hloop2]


/-! ### Loop lemmas for a fully successful reconciliation pass -/

theorem syncStep_allOk_skip (toIso : Int → String) (x : Event) (s : DSState)
    (h : MAX_RETRY_ATTEMPTS ≤ x.syncAttempts) :
    syncStep allOk toIso x s = (.ok (), s) := by
  simp [syncStep, h]

theorem syncStep_allOk_run (toIso : Int → String) (x : Event) (s : DSState)
    (h : ¬ MAX_RETRY_ATTEMPTS ≤ x.syncAttempts) :
    syncStep allOk toIso x s = (.ok (), { s with
      saves := s.saves + 1
      db := dsSaveEvents toIso (upsert (readEvents s.db)
        { x with status := EventStatus.SENT, syncAttempts := 0 }) }) := by
  have hn : allOk.saveFail s.saves = none := rfl
  simp [syncStep, h, dsSaveEvent_ok _ _ _ _ hn]

/-- A fully successful pass processes any prefix of the snapshot and
continues with the rest from some intermediate state. -/
theorem syncLoop_allOk_append (toIso : Int → String) (a rest : List Event) :
    ∀ s : DSState, ∃ s1 : DSState,
      syncLoop allOk toIso (a ++ rest) s = syncLoop allOk toIso rest s1 := by
  induction a with
  | nil => intro s; exact ⟨s, rfl⟩
  | cons x xs ih =>
      intro s
      rw [List.cons_append]
      by_cases h : MAX_RETRY_ATTEMPTS ≤ x.syncAttempts
      · simp only [syncLoop, syncStep_allOk_skip toIso x s h]
        exact ih s
      · simp only [syncLoop, syncStep_allOk_run toIso x s h]
        exact ih _

/-- A fully successful pass over events whose ids all differ from i keeps
the stored record under i intact, provided that record is serialization
stable. -/
theorem syncLoop_allOk_preserve (toIso : Int → String) (i : String) (v : Event)
    (hv : jsonRound toIso v = v) :
    ∀ (b : List Event) (s : DSState),
      (∀ x ∈ b, ¬ x.id = i) →
      lookupStore s.db i = some v →
      ∃ s2, syncLoop allOk toIso b s = (.ok (), s2) ∧
        lookupStore s2.db i = some v := by
  intro b
  induction b with
  | nil => intro s _ hl; exact ⟨s, rfl, hl⟩
  | cons x xs ih =>
      intro s hne hl
      by_cases h : MAX_RETRY_ATTEMPTS ≤ x.syncAttempts
      · simp only [syncLoop, syncStep_allOk_skip toIso x s h]
        exact ih s (fun y hy => hne y (List.mem_cons_of_mem _ hy)) hl
      · simp only [syncLoop, syncStep_allOk_run toIso x s h]
        refine ih _ (fun y hy => hne y (List.mem_cons_of_mem _ hy)) ?_
        have hxi : ¬ ({ x with status := EventStatus.SENT, syncAttempts := 0 } : Event).id = i :=
          hne x (List.mem_cons_self _ _)
        have hne2 := lookupStore_save_ne toIso s.db
          { x with status := EventStatus.SENT, syncAttempts := 0 } i hxi
        show lookupStore (dsSaveEvents toIso (upsert (readEvents s.db)
          { x with status := EventStatus.SENT, syncAttempts := 0 })) i = some v
        rw [hne2, hl]
        simp [hv]


/-- C1 (amended): for every stored event with status PENDING or FAILED and
syncAttempts strictly below the maximum, a fully successful reconciliation
pass while connected persists it with status SENT and syncAttempts 0, but
lastSyncError keeps its prior value — it is NOT cleared, contrary to the
claim; every other field is likewise untouched.  The stored collection is
arbitrary, with pairwise distinct ids and the event in serialized form as
storage always yields it. -/
theorem C1_success_resets_attempts_keeps_lastSyncError (toIso : Int → String)
    (l : List Event) (e : Event)
    (hmem : e ∈ l)
    (helig : e.status = EventStatus.PENDING ∨ e.status = EventStatus.FAILED)
    (hatt : e.syncAttempts < MAX_RETRY_ATTEMPTS)
    (huniq : l.Pairwise (fun a b => ¬ a.id = b.id))
    (htext : timesText e = true) :
    ∃ s2, syncEvents allOk toIso true (st0 (DBVal.blob l)) = (.ok (), s2) ∧
      lookupStore s2.db e.id
        = some { e with status := EventStatus.SENT, syncAttempts := 0 } := by
  have hepf : e ∈ pendingOrFailed l := by
    refine List.mem_filter.2 ⟨hmem, ?_⟩
    rcases helig with h | h <;> simp [h]
  have hpw : (pendingOrFailed l).Pairwise (fun a b => ¬ a.id = b.id) :=
    huniq.sublist (List.filter_sublist l)
  obtain ⟨a, b, hsplit⟩ := List.append_of_mem hepf
  rw [hsplit] at hpw
  have hpw2 := List.pairwise_append.1 hpw
  have hb : ∀ y ∈ b, ¬ y.id = e.id := by
    have hcons := (List.pairwise_cons.1 hpw2.2.1).1
    intro y hy hyx
    exact hcons y hy hyx.symm
  obtain ⟨s1, h1⟩ :=
    syncLoop_allOk_append toIso a (e :: b) (⟨DBVal.blob l, 0, 1⟩ : DSState)
  have hnsk : ¬ MAX_RETRY_ATTEMPTS ≤ e.syncAttempts := Nat.not_le.mpr hatt
  have hjr : jsonRound toIso
      ({ e with status := EventStatus.SENT, syncAttempts := 0 } : Event)
      = { e with status := EventStatus.SENT, syncAttempts := 0 } :=
    jsonRound_of_timesText toIso _ htext
  have hlook2 : lookupStore ({ s1 with
      saves := s1.saves + 1
      db := dsSaveEvents toIso (upsert (readEvents s1.db)
        { e with status := EventStatus.SENT, syncAttempts := 0 }) } : DSState).db e.id
      = some { e with status := EventStatus.SENT, syncAttempts := 0 } :=
    (lookupStore_save_self toIso s1.db _).trans (congrArg some hjr)
  obtain ⟨s3, hloopb, hlook3⟩ := syncLoop_allOk_preserve toIso e.id
    { e with status := EventStatus.SENT, syncAttempts := 0 } hjr b _ hb hlook2
  have hget : dsGetEvents allOk (st0 (DBVal.blob l))
      = (.ok l, ⟨DBVal.blob l, 0, 1⟩) := rfl
  have hchain : syncLoop allOk toIso (pendingOrFailed l) ⟨DBVal.blob l, 0, 1⟩
      = (.ok (), s3) := by
    rw [hsplit, h1]
    simp only [syncLoop, syncStep_allOk_run toIso e s1 hnsk]
    exact hloopb
  exact ⟨s3, by simp [syncEvents, hget, hchain], hlook3⟩



/-! ### Invariant preservation lemmas -/

theorem invLe3_save (toIso : Int → String) (db : DBVal) (x : Event)
    (hdb : InvLe3 db) (hx : x.syncAttempts ≤ MAX_RETRY_ATTEMPTS) :
    InvLe3 (dsSaveEvents toIso (upsert (readEvents db) x)) := by
  intro y hy
  have hy2 : y ∈ (upsert (readEvents db) x).map (jsonRound toIso) := hy
  obtain ⟨z, hz, rfl⟩ := List.mem_map.1 hy2
  rw [jsonRound_syncAttempts]
  rcases mem_upsert hz with rfl | hz2
  · exact hx
  · exact hdb z hz2

theorem invLe3_deleteWrite (toIso : Int → String) (db : DBVal) (i : String)
    (hdb : InvLe3 db) :
    InvLe3 (dsSaveEvents toIso
      ((readEvents db).filter (fun x => !(x.id == i)))) := by
  intro y hy
  have hy2 : y ∈ ((readEvents db).filter (fun x => !(x.id == i))).map
      (jsonRound toIso) := hy
  obtain ⟨z, hz, rfl⟩ := List.mem_map.1 hy2
  rw [jsonRound_syncAttempts]
  exact hdb z (List.mem_filter.1 hz).1

theorem invLe3_dsSaveEvent (ora : Oracle) (toIso : Int → String) (x : Event)
    (s : DSState) (hdb : InvLe3 s.db)
    (hx : x.syncAttempts ≤ MAX_RETRY_ATTEMPTS) :
    InvLe3 (dsSaveEvent ora toIso x s).2.db := by
  cases hsf : ora.saveFail s.saves with
  | none =>
      rw [dsSaveEvent_ok _ _ _ _ hsf]
      exact invLe3_save toIso s.db x hdb hx
  | some m =>
      rw [dsSaveEvent_fail _ _ _ _ _ hsf]
      exact hdb

theorem dsGetEvents_db (ora : Oracle) (s : DSState) :
    (dsGetEvents ora s).2.db = s.db := by
  unfold dsGetEvents
  by_cases h : ora.getFail s.gets <;> simp [h]

theorem invLe3_syncStep (ora : Oracle) (toIso : Int → String) (x : Event)
    (s : DSState) (hdb : InvLe3 s.db) :
    InvLe3 (syncStep ora toIso x s).2.db := by
  by_cases h : MAX_RETRY_ATTEMPTS ≤ x.syncAttempts
  · simpa [syncStep, h] using hdb
  · have hlt : x.syncAttempts + 1 ≤ MAX_RETRY_ATTEMPTS :=
      Nat.succ_le_of_lt (Nat.not_le.1 h)
    cases hsf : ora.saveFail s.saves with
    | none =>
        simp only [syncStep, if_neg h, dsSaveEvent_ok _ _ _ _ hsf]
        exact invLe3_save toIso s.db _ hdb (Nat.zero_le _)
    | some msg =>
        have hsf1 : ora.saveFail ({ s with saves := s.saves + 1 } : DSState).saves
            = ora.saveFail (s.saves + 1) := rfl
        cases hsf2 : ora.saveFail (s.saves + 1) with
        | none =>
            simp only [syncStep, if_neg h, dsSaveEvent_fail _ _ _ _ _ hsf,
              dsSaveEvent_ok _ _ _ _ (hsf1.trans hsf2)]
            exact invLe3_save toIso s.db _ hdb hlt
        | some m2 =>
            simp only [syncStep, if_neg h, dsSaveEvent_fail _ _ _ _ _ hsf,
              dsSaveEvent_fail _ _ _ _ _ (hsf1.trans hsf2)]
            exact hdb

theorem invLe3_syncLoop (ora : Oracle) (toIso : Int → String) :
    ∀ (evts : List Event) (s : DSState),
      InvLe3 s.db → InvLe3 (syncLoop ora toIso evts s).2.db := by
  intro evts
  induction evts with
  | nil => intro s h; exact h
  | cons x xs ih =>
      intro s h
      have hstep := invLe3_syncStep ora toIso x s h
      rcases h1 : syncStep ora toIso x s with ⟨r1, s1⟩
      rw [h1] at hstep
      simp only [syncLoop]
      rw [h1]
      cases r1 with
      | ok u => exact ih s1 hstep
      | error m => exact hstep


/-- C5 (amended): the invariant that no stored syncAttempts exceeds the
maximum (3) is preserved by createEvent, deleteEvent and syncEvents
unconditionally, and by updateEvent provided the event argument itself
satisfies the bound.  The proviso is forced by the counterexample: an
offline updateEvent persists the given attempt counter verbatim. -/
theorem C5_invariant_preserved (ora : Oracle) (toIso : Int → String)
    (conn : Bool) (s : DSState) (hs : InvLe3 s.db) :
    (∀ e : Event, InvLe3 (createEvent ora toIso conn e s).2.db) ∧
    (∀ e : Event, e.syncAttempts ≤ MAX_RETRY_ATTEMPTS →
      InvLe3 (updateEvent ora toIso conn e s).2.db) ∧
    (∀ i : String, InvLe3 (deleteEvent ora toIso conn i s).2.db) ∧
    InvLe3 (syncEvents ora toIso conn s).2.db := by
  have hsf1 : ∀ s2 : DSState, s2 = { s with saves := s.saves + 1 } →
      ora.saveFail s2.saves = ora.saveFail (s.saves + 1) := by
    intro s2 h2; rw [h2]
  refine ⟨?_, ?_, ?_, ?_⟩
  · intro e
    cases conn with
    | false =>
        cases hsf : ora.saveFail s.saves with
        | none =>
            simp only [createEvent, Bool.false_eq_true, if_false,
              dsSaveEvent_ok _ _ _ _ hsf]
            exact invLe3_save toIso s.db _ hs (Nat.zero_le _)
        | some m =>
            simp only [createEvent, Bool.false_eq_true, if_false,
              dsSaveEvent_fail _ _ _ _ _ hsf]
            exact hs
    | true =>
        cases hsf : ora.saveFail s.saves with
        | none =>
            simp only [createEvent, eq_self_iff_true, if_true,
              dsSaveEvent_ok _ _ _ _ hsf]
            exact invLe3_save toIso s.db _ hs (Nat.zero_le _)
        | some m =>
            cases hsf2 : ora.saveFail (s.saves + 1) with
            | none =>
                simp only [createEvent, eq_self_iff_true, if_true,
                  dsSaveEvent_fail _ _ _ _ _ hsf,
                  dsSaveEvent_ok _ _ _ _ ((hsf1 _ rfl).trans hsf2)]
                refine invLe3_save toIso s.db _ hs ?_
                show (1 : Nat) ≤ MAX_RETRY_ATTEMPTS
                decide
            | some m2 =>
                simp only [createEvent, eq_self_iff_true, if_true,
                  dsSaveEvent_fail _ _ _ _ _ hsf,
                  dsSaveEvent_fail _ _ _ _ _ ((hsf1 _ rfl).trans hsf2)]
                exact hs
  · intro e hle
    cases conn with
    | false =>
        cases hsf : ora.saveFail s.saves with
        | none =>
            simp only [updateEvent, Bool.false_eq_true, if_false,
              dsSaveEvent_ok _ _ _ _ hsf]
            exact invLe3_save toIso s.db _ hs hle
        | some m =>
            simp only [updateEvent, Bool.false_eq_true, if_false,
              dsSaveEvent_fail _ _ _ _ _ hsf]
            exact hs
    | true =>
        cases hsf : ora.saveFail s.saves with
        | none =>
            simp only [updateEvent, eq_self_iff_true, if_true,
              dsSaveEvent_ok _ _ _ _ hsf]
            exact invLe3_save toIso s.db _ hs (Nat.zero_le _)
        | some m =>
            cases hsf2 : ora.saveFail (s.saves + 1) with
            | none =>
                simp only [updateEvent, eq_self_iff_true, if_true,
                  dsSaveEvent_fail _ _ _ _ _ hsf,
                  dsSaveEvent_ok _ _ _ _ ((hsf1 _ rfl).trans hsf2)]
                exact invLe3_save toIso s.db _ hs (Nat.min_le_right _ _)
            | some m2 =>
                simp only [updateEvent, eq_self_iff_true, if_true,
                  dsSaveEvent_fail _ _ _ _ _ hsf,
                  dsSaveEvent_fail _ _ _ _ _ ((hsf1 _ rfl).trans hsf2)]
                exact hs
  · intro i
    cases conn with
    | false => exact hs
    | true =>
        by_cases hdf : ora.deleteFail
        · simp only [deleteEvent, dsDeleteEvent, eq_self_iff_true, if_true,
            if_pos hdf]
          exact hs
        · simp only [deleteEvent, dsDeleteEvent, eq_self_iff_true, if_true,
            if_neg hdf]
          exact invLe3_deleteWrite toIso s.db i hs
  · cases conn with
    | false => exact hs
    | true =>
        rcases hg : dsGetEvents ora s with ⟨rg, s1⟩
        have hs1 : InvLe3 s1.db := by
          have hdb := dsGetEvents_db ora s
          rw [hg] at hdb
          have hdb2 : s1.db = s.db := hdb
          rw [hdb2]
          exact hs
        cases rg with
        | error m =>
            simp only [syncEvents, eq_self_iff_true, if_true, hg]
            exact hs1
        | ok l =>
            rcases hl : syncLoop ora toIso (pendingOrFailed l) s1 with ⟨r2, s2⟩
            have h2 := invLe3_syncLoop ora toIso (pendingOrFailed l) s1 hs1
            rw [hl] at h2
            simp only [syncEvents, eq_self_iff_true, if_true, hg, hl]
            exact h2


/-- C6 (amended): persisted mutations do not refresh updatedAt.  Whenever
createEvent or updateEvent returns an event, its updatedAt equals the
value carried by the input event, and a non-skipped per-event sync
persistence stores a record whose updatedAt equals the prior value (for a
stored, serialized event literally unchanged).  The timestamps are set
only at entity construction, never on mutation. -/
theorem C6_mutations_keep_updatedAt (ora : Oracle) (toIso : Int → String)
    (conn : Bool) (e : Event) (s : DSState) :
    (∀ ev s1, createEvent ora toIso conn e s = (.ok ev, s1) →
      ev.updatedAt = e.updatedAt) ∧
    (∀ ev s1, updateEvent ora toIso conn e s = (.ok ev, s1) →
      ev.updatedAt = e.updatedAt) ∧
    (e.syncAttempts < MAX_RETRY_ATTEMPTS → timesText e = true →
      ∀ s1, syncStep ora toIso e s = (.ok (), s1) →
        ∃ w, lookupStore s1.db e.id = some w ∧ w.updatedAt = e.updatedAt) := by
  have hcast : ∀ m : Option String, ora.saveFail (s.saves + 1) = m →
      ora.saveFail ({ s with saves := s.saves + 1 } : DSState).saves = m :=
    fun m hm => hm
  refine ⟨?_, ?_, ?_⟩
  · intro ev s1 h
    cases conn with
    | false =>
        cases hsf : ora.saveFail s.saves with
        | none =>
            simp only [createEvent, Bool.false_eq_true, if_false,
              dsSaveEvent_ok _ _ _ _ hsf, Prod.mk.injEq, Except.ok.injEq] at h
            rw [← h.1]
        | some m =>
            simp only [createEvent, Bool.false_eq_true, if_false,
              dsSaveEvent_fail _ _ _ _ _ hsf] at h
            exact Except.noConfusion (congrArg Prod.fst h)
    | true =>
        cases hsf : ora.saveFail s.saves with
        | none =>
            simp only [createEvent, eq_self_iff_true, if_true,
              dsSaveEvent_ok _ _ _ _ hsf, Prod.mk.injEq, Except.ok.injEq] at h
            rw [← h.1]
        | some m =>
            cases hsf2 : ora.saveFail (s.saves + 1) with
            | none =>
                simp only [createEvent, eq_self_iff_true, if_true,
                  dsSaveEvent_fail _ _ _ _ _ hsf,
                  dsSaveEvent_ok _ _ _ _ (hcast none hsf2), Prod.mk.injEq,
                  Except.ok.injEq] at h
                rw [← h.1]
            | some m2 =>
                simp only [createEvent, eq_self_iff_true, if_true,
                  dsSaveEvent_fail _ _ _ _ _ hsf,
                  dsSaveEvent_fail _ _ _ _ _ (hcast (some m2) hsf2)] at h
                exact Except.noConfusion (congrArg Prod.fst h)
  · intro ev s1 h
    cases conn with
    | false =>
        cases hsf : ora.saveFail s.saves with
        | none =>
            simp only [updateEvent, Bool.false_eq_true, if_false,
              dsSaveEvent_ok _ _ _ _ hsf, Prod.mk.injEq, Except.ok.injEq] at h
            rw [← h.1]
        | some m =>
            simp only [updateEvent, Bool.false_eq_true, if_false,
              dsSaveEvent_fail _ _ _ _ _ hsf] at h
            exact Except.noConfusion (congrArg Prod.fst h)
    | true =>
        cases hsf : ora.saveFail s.saves with
        | none =>
            simp only [updateEvent, eq_self_iff_true, if_true,
              dsSaveEvent_ok _ _ _ _ hsf, Prod.mk.injEq, Except.ok.injEq] at h
            rw [← h.1]
        | some m =>
            cases hsf2 : ora.saveFail (s.saves + 1) with
            | none =>
                simp only [updateEvent, eq_self_iff_true, if_true,
                  dsSaveEvent_fail _ _ _ _ _ hsf,
                  dsSaveEvent_ok _ _ _ _ (hcast none hsf2), Prod.mk.injEq,
                  Except.ok.injEq] at h
                rw [← h.1]
            | some m2 =>
                simp only [updateEvent, eq_self_iff_true, if_true,
                  dsSaveEvent_fail _ _ _ _ _ hsf,
                  dsSaveEvent_fail _ _ _ _ _ (hcast (some m2) hsf2)] at h
                exact Except.noConfusion (congrArg Prod.fst h)
  · intro hlt htext s1 h
    have hns : ¬ MAX_RETRY_ATTEMPTS ≤ e.syncAttempts := Nat.not_le.mpr hlt
    cases hsf : ora.saveFail s.saves with
    | none =>
        simp only [syncStep, if_neg hns, dsSaveEvent_ok _ _ _ _ hsf,
          Prod.mk.injEq, true_and] at h
        refine ⟨{ e with status := EventStatus.SENT, syncAttempts := 0 },
          ?_, rfl⟩
        rw [← h]
        exact (lookupStore_save_self toIso s.db _).trans
          (congrArg some (jsonRound_of_timesText toIso _ htext))
    | some m =>
        cases hsf2 : ora.saveFail (s.saves + 1) with
        | none =>
            simp only [syncStep, if_neg hns, dsSaveEvent_fail _ _ _ _ _ hsf,
              dsSaveEvent_ok _ _ _ _ (hcast none hsf2), Prod.mk.injEq,
              true_and] at h
            refine ⟨{ e with
              syncAttempts := e.syncAttempts + 1
              lastSyncError := some (strOr m "Sync failed")
              status := if MAX_RETRY_ATTEMPTS ≤ e.syncAttempts + 1
                        then EventStatus.FAILED else EventStatus.PENDING },
              ?_, rfl⟩
            rw [← h]
            exact (lookupStore_save_self toIso s.db _).trans
              (congrArg some (jsonRound_of_timesText toIso _ htext))
        | some m2 =>
            simp only [syncStep, if_neg hns, dsSaveEvent_fail _ _ _ _ _ hsf,
              dsSaveEvent_fail _ _ _ _ _ (hcast (some m2) hsf2)] at h
            exact Except.noConfusion (congrArg Prod.fst h)


/-- C7 (amended): persisting N events and reloading the collection yields
exactly their serializations: the same number of events, every
non-timestamp field (id, objectId, type, comment, photoUri, status,
syncAttempts, lastSyncError, serverId) equal to the original, and each
timestamp field in its serialized text form — hence equal to the original
exactly when the original was already text, and different for live Date
values. -/
theorem C7_roundtrip_up_to_serialization (toIso : Int → String)
    (l : List Event) :
    readEvents (dsSaveEvents toIso l) = l.map (jsonRound toIso) ∧
    (readEvents (dsSaveEvents toIso l)).length = l.length ∧
    (∀ e ∈ l,
      (jsonRound toIso e).id = e.id ∧
      (jsonRound toIso e).objectId = e.objectId ∧
      (jsonRound toIso e).type = e.type ∧
      (jsonRound toIso e).comment = e.comment ∧
      (jsonRound toIso e).photoUri = e.photoUri ∧
      (jsonRound toIso e).status = e.status ∧
      (jsonRound toIso e).syncAttempts = e.syncAttempts ∧
      (jsonRound toIso e).lastSyncError = e.lastSyncError ∧
      (jsonRound toIso e).serverId = e.serverId ∧
      (jsonRound toIso e).occurredAt = timeRound toIso e.occurredAt ∧
      (jsonRound toIso e).createdAt = timeRound toIso e.createdAt ∧
      (jsonRound toIso e).updatedAt = timeRound toIso e.updatedAt ∧
      (timesText e = true → jsonRound toIso e = e)) := by
  refine ⟨rfl, by simp [dsSaveEvents, readEvents], ?_⟩
  intro e he
  exact ⟨rfl, rfl, rfl, rfl, rfl, rfl, rfl, rfl, rfl, rfl, rfl, rfl,
    fun h => jsonRound_of_timesText toIso e h⟩

/-! ### Witnesses: the general theorems applied at concrete inputs -/

/-- Witness for C1: the amended theorem evaluated on the one-event store
holding evErr. -/
theorem C1_witness_concrete :
    ∃ s2, syncEvents allOk iso0 true (st0 (DBVal.blob [evErr])) = (.ok (), s2) ∧
      lookupStore s2.db evErr.id
        = some { evErr with status := EventStatus.SENT, syncAttempts := 0 } :=
  C1_success_resets_attempts_keeps_lastSyncError iso0 [evErr] evErr
    (by simp) (Or.inr rfl) (by decide) (by simp) rfl

/-- Witness for C2: the theorem evaluated on evTwo with failure message
"netdown". -/
theorem C2_witness_concrete :
    ∃ s1, syncEvents (failFirst "netdown") iso0 true (st0 (DBVal.blob [evTwo]))
        = (.ok (), s1) ∧
      s1.db = DBVal.blob [{ evTwo with
        syncAttempts := MAX_RETRY_ATTEMPTS
        lastSyncError := some (strOr "netdown" "Sync failed")
        status := EventStatus.FAILED }] ∧
      syncEvents (failFirst "netdown") iso0 true s1
        = (.ok (), { s1 with gets := s1.gets + 1 }) :=
  (C2_failed_attempt_reaches_max_then_skipped iso0 evTwo "netdown"
    (Or.inr rfl) rfl rfl).1

/-- Witness for C4: offline creation of ev1 over an empty store. -/
theorem C4_witness_concrete :
    ∃ s1,
      createEvent allOk iso0 false ev1 (st0 DBVal.absent) =
        (.ok { ev1 with status := EventStatus.PENDING, syncAttempts := 0 }, s1) ∧
      getEventById allOk ev1.id s1 =
        (.ok (some (jsonRound iso0
            { ev1 with status := EventStatus.PENDING, syncAttempts := 0 })),
          { s1 with gets := s1.gets + 1 }) ∧
      (jsonRound iso0 { ev1 with status := EventStatus.PENDING, syncAttempts := 0 }).id
        = ev1.id ∧
      (jsonRound iso0 { ev1 with status := EventStatus.PENDING, syncAttempts := 0 }).status
        = EventStatus.PENDING ∧
      (jsonRound iso0 { ev1 with status := EventStatus.PENDING, syncAttempts := 0 }).syncAttempts
        = 0 :=
  C4_createEvent_offline_persists allOk iso0 ev1 (st0 DBVal.absent) rfl rfl

/-- Witness for C5: the amended invariant theorem evaluated on a store
holding ev1 and evErr, with the update argument evErr. -/
theorem C5_witness_concrete :
    InvLe3 (updateEvent allOk iso0 false evErr
      (st0 (DBVal.blob [ev1, evErr]))).2.db ∧
    InvLe3 (syncEvents allOk iso0 true (st0 (DBVal.blob [ev1, evErr]))).2.db :=
  ⟨(C5_invariant_preserved allOk iso0 false (st0 (DBVal.blob [ev1, evErr]))
      (by decide)).2.1 evErr (by decide),
   (C5_invariant_preserved allOk iso0 true (st0 (DBVal.blob [ev1, evErr]))
      (by decide)).2.2.2⟩

/-- Witness for C6: the amended theorem evaluated on evErr, offline update
and a per-event sync step over the singleton store. -/
theorem C6_witness_concrete :
    ({ evErr with status := EventStatus.PENDING } : Event).updatedAt
      = evErr.updatedAt ∧
    (∃ w, lookupStore
        ({ st0 (DBVal.blob [evErr]) with
          saves := 1
          db := dsSaveEvents iso0 (upsert [evErr]
            { evErr with status := EventStatus.SENT, syncAttempts := 0 }) } : DSState).db
        evErr.id = some w ∧ w.updatedAt = evErr.updatedAt) := by
  refine ⟨?_, ?_⟩
  · exact (C6_mutations_keep_updatedAt allOk iso0 false evErr
      (st0 (DBVal.blob [evErr]))).2.1
      { evErr with status := EventStatus.PENDING } _ rfl
  · exact (C6_mutations_keep_updatedAt allOk iso0 true evErr
      (st0 (DBVal.blob [evErr]))).2.2 (by decide) rfl _ rfl

/-- Witness for C7: the amended round-trip theorem evaluated on a
two-event list holding one serialized and one Date-carrying event. -/
theorem C7_witness_concrete :
    readEvents (dsSaveEvents iso0 [ev1, evDate])
      = [ev1, evDate].map (jsonRound iso0) ∧
    (jsonRound iso0 evDate).id = evDate.id ∧
    jsonRound iso0 ev1 = ev1 :=
  ⟨(C7_roundtrip_up_to_serialization iso0 [ev1, evDate]).1,
   ((C7_roundtrip_up_to_serialization iso0 [ev1, evDate]).2.2 evDate
      (by simp)).1,
   ((C7_roundtrip_up_to_serialization iso0 [ev1, evDate]).2.2 ev1
      (by simp)).2.2.2.2.2.2.2.2.2.2.2.2 rfl⟩

end B2B
